import Mathlib

/-!
Verification of the `manual_ndisc` speech-sampling and annotation pipeline.

Each Python function that a claim refers to is shallowly embedded as an
executable Lean definition, keeping the source's structure and names.
Theorems then settle the specified properties against these definitions.
-/

set_option maxRecDepth 4000

namespace ManualNdisc

/-! Part 1: stratified sampler (`amostrar_discursos.py`). -/

/-- Embeds `tamanho_amostra_por_partido(n)`:
`if n >= 100: return max(1, math.ceil(0.01 * n))`; `return 1 if n > 0 else 0`.
`math.ceil(0.01 * n)` is modelled exactly as the ceiling of the rational
`0.01 * n` (the double-precision computation agrees with the exact ceiling
for all feasible stratum sizes). -/
def tamanho_amostra_por_partido (n : ℕ) : ℕ :=
  if n ≥ 100 then max 1 ⌈(0.01 : ℚ) * n⌉₊ else if n > 0 then 1 else 0

/-- The rational ceiling `⌈0.01 * n⌉₊` is the natural-number ceiling division
`(n + 99) / 100`. -/
theorem ceil_hundredth (n : ℕ) (h : 1 ≤ n) :
    ⌈(0.01 : ℚ) * n⌉₊ = (n + 99) / 100 := by
  have hA : 100 * ((n + 99) / 100) ≤ n + 99 := by omega
  have hB : n ≤ 100 * ((n + 99) / 100) := by omega
  have hk1 : 1 ≤ (n + 99) / 100 := by omega
  rw [Nat.ceil_eq_iff (by omega)]
  have hAq : (100 : ℚ) * ((n + 99) / 100 : ℕ) ≤ (n : ℚ) + 99 := by
    exact_mod_cast hA
  have hBq : (n : ℚ) ≤ 100 * ((n + 99) / 100 : ℕ) := by exact_mod_cast hB
  constructor
  · rw [Nat.cast_sub hk1]
    nlinarith
  · nlinarith

/-- Executable characterisation of `tamanho_amostra_por_partido`. -/
theorem tamanho_eq (n : ℕ) :
    tamanho_amostra_por_partido n =
      if n ≥ 100 then max 1 ((n + 99) / 100) else if n > 0 then 1 else 0 := by
  unfold tamanho_amostra_por_partido
  by_cases h : n ≥ 100
  · simp only [if_pos h, ceil_hundredth n (by omega)]
  · simp only [if_neg h]

/-- An eligible entry: `(CodigoPronunciamento, CodigoParlamentar)`. -/
abbrev Entry := Int × Option Int

/-- Abstract model of Python's global `random` module: `seedF` reinitialises
the generator state from a seed, `sampleF` draws `k` elements without
replacement from a list and advances the state. -/
structure RNG (σ : Type) where
  seedF : Int → σ
  sampleF : σ → List Entry → ℕ → List Entry × σ

/-- The `for partido, linhas in elegiveis.items()` loop body of
`amostrar_por_partido`, threading the generator state. The mapping is
embedded as an association list in its iteration order. -/
def amostrarLoop {σ : Type} (rng : RNG σ) (st : σ) :
    List (String × List Entry) → List Int
  | [] => []
  | (_, linhas) :: rest =>
    let n := linhas.length
    let k := tamanho_amostra_por_partido n
    if k = 0 then amostrarLoop rng st rest
    else
      let res := rng.sampleF st linhas (min k n)
      res.1.map Prod.fst ++ amostrarLoop rng res.2 rest

/-- Embeds `amostrar_por_partido(elegiveis, seed=...)`: when a seed is given
the generator is reseeded once, before the per-stratum loop; otherwise the
ambient generator state is used as-is. -/
def amostrar_por_partido {σ : Type} (rng : RNG σ) (ambient : σ)
    (seed : Option Int) (elegiveis : List (String × List Entry)) : List Int :=
  let st0 := match seed with
    | some s => rng.seedF s
    | none => ambient
  amostrarLoop rng st0 elegiveis

/-- A concrete instance of the abstract generator, used to exhibit the
dependence of the selection on the mapping's iteration order. -/
def demoRNG : RNG ℕ where
  seedF s := s.toNat
  sampleF st l k := ((l.rotateLeft st).take k, st + 1)

/-- Stratum contents used in the iteration-order counterexample. -/
def eA : List Entry := [(1, none), (2, none)]

/-- Stratum contents used in the iteration-order counterexample. -/
def eB : List Entry := [(3, none), (4, none)]

/-- C1: per-stratum sample size is 0 for an empty stratum, 1 for
`0 < n < 100`, and `ceil(0.01 * n)` for `n ≥ 100`; on sizes
0, 1, 50, 99, 100, 250 it yields 0, 1, 1, 1, 1, 3. -/
theorem C1_sample_size_rule :
    tamanho_amostra_por_partido 0 = 0 ∧
    (∀ n : ℕ, 0 < n → n < 100 → tamanho_amostra_por_partido n = 1) ∧
    (∀ n : ℕ, 100 ≤ n →
      tamanho_amostra_por_partido n = ⌈(0.01 : ℚ) * n⌉₊) ∧
    tamanho_amostra_por_partido 1 = 1 ∧
    tamanho_amostra_por_partido 50 = 1 ∧
    tamanho_amostra_por_partido 99 = 1 ∧
    tamanho_amostra_por_partido 100 = 1 ∧
    tamanho_amostra_por_partido 250 = 3 := by
  refine ⟨by rw [tamanho_eq]; decide, ?_, ?_, by rw [tamanho_eq]; decide,
    by rw [tamanho_eq]; decide, by rw [tamanho_eq]; decide,
    by rw [tamanho_eq]; decide, by rw [tamanho_eq]; decide⟩
  · intro n h1 h2
    rw [tamanho_eq]
    simp only [ge_iff_le, if_neg (by omega : ¬ 100 ≤ n), if_pos h1]
  · intro n h
    unfold tamanho_amostra_por_partido
    rw [if_pos h, max_eq_right]
    rw [ceil_hundredth n (by omega)]
    omega

/-- Witness for C1 at `n = 50` and `n = 250`. -/
theorem C1_sample_size_rule_witness :
    0 < 50 ∧ 50 < 100 ∧ tamanho_amostra_por_partido 50 = 1 ∧
    100 ≤ 250 ∧ tamanho_amostra_por_partido 250 = ⌈(0.01 : ℚ) * 250⌉₊ := by
  refine ⟨by norm_num, by norm_num, C1_sample_size_rule.2.1 50 (by norm_num) (by norm_num),
    by norm_num, ?_⟩
  have h := C1_sample_size_rule.2.2.1 250 (by norm_num)
  exact_mod_cast h

/-- C2 counterexample: with the seeded concrete generator, presenting the
same stratum mapping {A ↦ eA, B ↦ eB} in two different iteration orders
yields different selected-id sets (4 is selected in one run only), so the
selection is not independent of the mapping's iteration order and strata
are not iterated sorted by key. -/
theorem C2_order_dependence_counterexample :
    amostrar_por_partido demoRNG 0 (some 0) [("A", eA), ("B", eB)] = [1, 4] ∧
    amostrar_por_partido demoRNG 0 (some 0) [("B", eB), ("A", eA)] = [3, 2] ∧
    (4 : Int) ∈ [(1 : Int), 4] ∧ (4 : Int) ∉ [(3 : Int), 2] := by
  refine ⟨by decide, by decide, by decide, by decide⟩

/-- C2 amended: when a seed is supplied the generator is reseeded exactly
once per run, before the stratum loop, so the run is reproducible — the
result does not depend on the generator's ambient state — for any
generator model and any fixed mapping iteration order. -/
theorem C2_seeded_run_reproducible :
    ∀ (σ : Type) (rng : RNG σ) (a1 a2 : σ) (s : Int)
      (e : List (String × List Entry)),
      amostrar_por_partido rng a1 (some s) e =
        amostrar_por_partido rng a2 (some s) e := by
  intro σ rng a1 a2 s e
  rfl

/-- C8: for a non-empty stratum of size `n`, the sample size `k` satisfies
`1 ≤ k ≤ n` and `min k n = k`, so the without-replacement draw never
requests more elements than the stratum holds; empty strata are skipped
without touching the generator state. -/
theorem C8_sample_size_safe :
    (∀ n : ℕ, 1 ≤ n →
      1 ≤ tamanho_amostra_por_partido n ∧
      tamanho_amostra_por_partido n ≤ n ∧
      min (tamanho_amostra_por_partido n) n = tamanho_amostra_por_partido n) ∧
    (∀ (σ : Type) (rng : RNG σ) (st : σ) (p : String)
      (rest : List (String × List Entry)),
      amostrarLoop rng st ((p, []) :: rest) = amostrarLoop rng st rest) := by
  constructor
  · intro n h1
    rw [tamanho_eq]
    by_cases h : 100 ≤ n
    · simp only [ge_iff_le, if_pos h]
      refine ⟨?_, ?_, min_eq_left ?_⟩ <;> omega
    · simp only [ge_iff_le, if_neg h]
      rw [if_pos (show n > 0 by omega)]
      exact ⟨le_refl 1, h1, min_eq_left h1⟩
  · intro σ rng st p rest
    rfl

/-- Witness for C8 at `n = 5`. -/
theorem C8_sample_size_safe_witness :
    1 ≤ 5 ∧
    (1 ≤ tamanho_amostra_por_partido 5 ∧
      tamanho_amostra_por_partido 5 ≤ 5 ∧
      min (tamanho_amostra_por_partido 5) 5 = tamanho_amostra_por_partido 5) :=
  ⟨by norm_num, C8_sample_size_safe.1 5 (by norm_num)⟩

/-! Part 2: eligibility filter (`SQL_WORDS_FILTER` in `amostrar_discursos.py`). -/

/-- SQLite `REPLACE(s, a, b)` for a single-character pattern and
single-character replacement is a character-wise map. -/
def replaceChar (a b : Char) (s : List Char) : List Char :=
  s.map fun c => if c = a then b else c

/-- SQLite `REPLACE(s, '  ', ' ')`: replaces non-overlapping double spaces
left to right by single spaces in one pass (partial reduction — a run of
three spaces still leaves a double space). -/
def reduceDoubleSpaces : List Char → List Char
  | [] => []
  | ' ' :: ' ' :: t => ' ' :: reduceDoubleSpaces t
  | c :: t => c :: reduceDoubleSpaces t

/-- SQLite `TRIM(s)`: strips space characters from both ends. -/
def trimSpaces (s : List Char) : List Char :=
  ((s.dropWhile fun c => c = ' ').reverse.dropWhile fun c => c = ' ').reverse

/-- The normalised text `T` of the `WITH base AS (...)` clause:
`TRIM(REPLACE(REPLACE(REPLACE(REPLACE(COALESCE(TextoIntegral,''), CHAR(10),
' '), CHAR(13), ' '), CHAR(9), ' '), '  ', ' '))`. -/
def sqlNormalize (texto : Option String) : List Char :=
  trimSpaces (reduceDoubleSpaces
    (replaceChar '\t' ' ' (replaceChar '\r' ' ' (replaceChar '\n' ' '
      (texto.getD ("")).data))))

/-- The `WHERE` predicate of `SQL_WORDS_FILTER`:
`(LENGTH(T) - LENGTH(REPLACE(T, ' ', ''))) + 1 > 200`. `REPLACE(T, ' ', '')`
deletes every space, i.e. filters them out. -/
def sql_words_filter (texto : Option String) : Bool :=
  let T := sqlNormalize texto
  decide ((T.length - (T.filter fun c => c ≠ ' ').length) + 1 > 200)

/-- Removing the occurrences of `c` and counting them splits the length. -/
theorem filter_ne_length (c : Char) (l : List Char) :
    (l.filter fun x => x ≠ c).length + l.count c = l.length := by
  induction l with
  | nil => simp
  | cons a t ih =>
    simp only [ne_eq, decide_not] at ih ⊢
    by_cases h : a = c
    · subst h
      simp only [List.filter_cons, List.count_cons, List.length_cons]
      simp
      omega
    · simp only [List.filter_cons, List.count_cons, List.length_cons]
      simp [h]
      omega

/-- A 201-word text: 201 copies of `a` joined by single spaces. -/
def palavras201 : String := String.intercalate (" ") (List.replicate 201 ("a"))

/-- A 200-word text: 200 copies of `a` joined by single spaces. -/
def palavras200 : String := String.intercalate (" ") (List.replicate 200 ("a"))

/-- C5: the eligibility filter admits a record exactly when the approximate
word count (spaces in the normalised text plus one) strictly exceeds 200;
201 single-space-separated words pass, 200 do not, and a NULL text is
excluded. -/
theorem C5_words_filter :
    (∀ texto : Option String,
      sql_words_filter texto = true ↔
        (sqlNormalize texto).count ' ' + 1 > 200) ∧
    sql_words_filter none = false ∧
    sql_words_filter (some palavras201) = true ∧
    sql_words_filter (some palavras200) = false := by
  refine ⟨?_, by decide, by decide, by decide⟩
  intro texto
  unfold sql_words_filter
  have h := filter_ne_length ' ' (sqlNormalize texto)
  have hc := (sqlNormalize texto).count_le_length ' '
  simp only [decide_eq_true_eq]
  omega

/-! Part 3: cost estimator (`src/orcamento.py`, `sample_discursos_by_year`). -/

/-- One entry of `PRICES_PER_MILLION`: USD per 1M tokens for plain input,
cached input, and output. -/
structure ModelPrices where
  input : ℚ
  cached_input : ℚ
  output : ℚ

/-- Entry `PRICES_PER_MILLION["gpt-5"]`. -/
def PRICES_gpt5 : ModelPrices := ⟨0.625, 0.0625, 5.00⟩

/-- Per-item `est_custo_input_usd`:
`if prompt_cached and n_tokens_prompt > 0: texto * (input/1e6) + prompt *
(cached/1e6) else: (prompt + texto) * (input/1e6)`. -/
def est_custo_input_usd (p : ModelPrices) (n_tokens_texto n_tokens_prompt : ℕ)
    (prompt_cached : Bool) : ℚ :=
  let cost_per_token_input := p.input / 1000000
  let cost_per_token_cached := p.cached_input / 1000000
  if prompt_cached ∧ n_tokens_prompt > 0 then
    n_tokens_texto * cost_per_token_input +
      n_tokens_prompt * cost_per_token_cached
  else
    (n_tokens_prompt + n_tokens_texto) * cost_per_token_input

/-- Per-item `est_custo_output_usd`:
`if estimate_output_tokens_per_item is not None and
estimate_output_tokens_per_item >= 0: est * (output/1e6) else: 0.0`. -/
def est_custo_output_usd (p : ModelPrices)
    (estimate_output_tokens_per_item : Option Int) : ℚ :=
  match estimate_output_tokens_per_item with
  | some e => if e ≥ 0 then e * (p.output / 1000000) else 0
  | none => 0

/-- C6 counterexample: a supplied negative expected-output-token count is
priced as zero by the code, not as count × output price as the claim
states for every supplied value. -/
theorem C6_output_cost_counterexample :
    est_custo_output_usd PRICES_gpt5 (some (-1)) = 0 ∧
    (-1 : ℚ) * (PRICES_gpt5.output / 1000000) ≠ 0 := by
  constructor
  · rfl
  · norm_num [PRICES_gpt5]

/-- C6 amended: input cost is text tokens at the plain-input rate plus
prompt tokens at the cached rate when the prompt-cached flag is set
(plain rate otherwise); output cost is zero unless a nonnegative
expected-output-tokens-per-item is supplied, in which case it is that
count times the output rate; the claim's worked example holds. -/
theorem C6_cost_formulas :
    (∀ (p : ModelPrices) (texto prompt : ℕ) (cached : Bool),
      est_custo_input_usd p texto prompt cached =
        texto * (p.input / 1000000) +
          prompt * ((if cached then p.cached_input else p.input) / 1000000)) ∧
    (∀ (p : ModelPrices) (e : Int),
      est_custo_output_usd p (some e) =
        if 0 ≤ e then e * (p.output / 1000000) else 0) ∧
    (∀ p : ModelPrices, est_custo_output_usd p none = 0) ∧
    est_custo_input_usd PRICES_gpt5 90 10 true =
      90 * ((0.625 : ℚ) / 1000000) + 10 * ((0.0625 : ℚ) / 1000000) := by
  refine ⟨?_, ?_, fun p => rfl, by norm_num [est_custo_input_usd, PRICES_gpt5]⟩
  · intro p texto prompt cached
    unfold est_custo_input_usd
    cases cached with
    | false => simp only [Bool.false_eq_true, false_and, if_false, if_neg]
               ring
    | true =>
      rcases Nat.eq_zero_or_pos prompt with h | h
      · subst h
        simp only [gt_iff_lt, lt_irrefl, and_false, if_neg, not_false_iff]
        push_cast
        ring
      · rw [if_pos ⟨rfl, h⟩]
        simp
  · intro p e
    unfold est_custo_output_usd
    rfl

/-! Part 4: batch orchestrator poll loop (`batch_figuras.py`, `wait_and_download`). -/

/-- The tuple of statuses on which the `while True` poll loop breaks:
`("completed", "failed", "expired", "cancelled", "cancelling",
"finalizing")`. -/
def breakStatuses : List String :=
  ["completed", "failed", "expired", "cancelled", "cancelling", "finalizing"]

/-- The four terminal batch states named by the specification. -/
def specTerminalStatuses : List String :=
  ["completed", "failed", "expired", "cancelled"]

/-- The poll loop over a stream of observed statuses: the loop ends at the
first status in `breakStatuses`; `none` means the loop is still waiting
after the whole stream. -/
def pollExit (statuses : List String) : Option String :=
  statuses.find? fun s => breakStatuses.contains s

/-- The post-loop download step: a path is produced iff `output_file_id`
is present, with no regard to the exit status. -/
def downloadAfter (batch_id : String) (output_file_id : Option String) :
    Option String :=
  output_file_id.map fun _ => batch_id ++ "_output.jsonl"

/-- C4 counterexample: the poll loop exits at the non-terminal status
`"cancelling"` (likewise `"finalizing"`), which the claim says never ends
the wait. -/
theorem C4_poll_exit_counterexample :
    pollExit ["cancelling"] = some ("cancelling") ∧
    pollExit ["finalizing"] = some ("finalizing") ∧
    "cancelling" ∉ specTerminalStatuses ∧
    "finalizing" ∉ specTerminalStatuses := by
  refine ⟨rfl, rfl, by decide, by decide⟩

/-- C4 amended: the poll loop exits exactly at the first status among
completed, failed, expired, cancelled, cancelling or finalizing, and keeps
waiting on any stream free of those statuses; after exit, the download
outcome depends only on the presence of an output file id, so a terminal
non-completed exit is not surfaced distinctly from success. -/
theorem C4_poll_loop_behaviour :
    (∀ (l : List String) (s : String),
      pollExit l = some s → s ∈ breakStatuses) ∧
    (∀ l : List String,
      (∀ s ∈ l, s ∉ breakStatuses) → pollExit l = none) ∧
    (∀ bid : String, downloadAfter bid none = none) ∧
    (∀ (bid : String) (fid : String),
      downloadAfter bid (some fid) = some (bid ++ "_output.jsonl")) := by
  refine ⟨?_, ?_, fun bid => rfl, fun bid fid => rfl⟩
  · intro l s h
    have := List.find?_some h
    simpa using this
  · intro l h
    apply List.find?_eq_none.mpr
    intro s hs
    simpa using h s hs

/-- Witness for C4: the loop passes over `in_progress` and exits at
`completed`, a member of the break set; a stream of only non-break
statuses leaves the loop waiting. -/
theorem C4_poll_loop_behaviour_witness :
    pollExit ["in_progress", "completed"] = some ("completed") ∧
    "completed" ∈ breakStatuses ∧
    (∀ s ∈ ["in_progress", "validating"], s ∉ breakStatuses) ∧
    pollExit ["in_progress", "validating"] = none :=
  ⟨by decide, C4_poll_loop_behaviour.1 ["in_progress", "completed"]
      "completed" (by decide), by decide,
    C4_poll_loop_behaviour.2.1 ["in_progress", "validating"] (by decide)⟩

/-! Part 5: text highlighting (`utils.py`, `highlight_spans`). -/

/-- Helper for `html.escape(s)` (quote mode, the default): it replaces five special
characters; since no replacement text is itself re-replaced, the sequence
of `str.replace` passes is a character-wise map. -/
def apost : Char := Char.ofNat 39

/-- The `html.escape` character table (the apostrophe is `apost`). -/
def htmlEscapeChar (c : Char) : List Char :=
  if c = '&' then ("&amp;").data
  else if c = '<' then ("&lt;").data
  else if c = '>' then ("&gt;").data
  else if c = '"' then ("&quot;").data
  else if c = apost then ("&#x27;").data
  else [c]

/-- Models `html.escape` on a character list. -/
def html_escape (s : List Char) : List Char :=
  s.flatMap htmlEscapeChar

/-- One row of the spans dataframe: `start_char`, `end_char`, `label`. -/
structure Span where
  start_char : Int
  end_char : Int
  label : String
deriving DecidableEq, Repr

/-- Python slice index normalisation: negative indices count from the end,
indices are clamped into `[0, n]`. -/
def pyIdx (n : ℕ) (i : Int) : ℕ :=
  if i < 0 then ((n : Int) + i).toNat else min i.toNat n

/-- Python slice `s[a:b]`. -/
def pySlice (s : List Char) (a b : Int) : List Char :=
  (s.take (pyIdx s.length b)).drop (pyIdx s.length a)

/-- Stable sort by `start_char`, modelling `spans.sort_values("start_char")`. -/
def insertSpan (x : Span) : List Span → List Span
  | [] => [x]
  | y :: r =>
    if x.start_char ≤ y.start_char then x :: y :: r else y :: insertSpan x r

/-- Stable sort by `start_char`, modelling `spans.sort_values("start_char")`. -/
def sortSpans (l : List Span) : List Span :=
  l.foldr insertSpan []

/-- The f-string marker
`<mark class="label-{label}">{snippet}<span class="badge">{label}</span></mark>`. -/
def markTag (label : String) (snippet : List Char) : List Char :=
  (("<mark class=\"label-") ++ label ++ ("\">")).data ++ snippet ++
    (("<span class=\"badge\">") ++ label ++ ("</span></mark>")).data

/-- The `for _, row in spans.iterrows()` loop of `highlight_spans`,
carrying `last`; the trailing `parts.append(html.escape(text[last:]))` is
the base case. -/
def highlightLoop (text : List Char) (last : Int) : List Span → List Char
  | [] => html_escape (pySlice text last (text.length : Int))
  | r :: rest =>
    html_escape (pySlice text last r.start_char) ++
      markTag r.label (html_escape (pySlice text r.start_char r.end_char)) ++
      highlightLoop text r.end_char rest

/-- Embeds `highlight_spans(text, spans)`. -/
def highlight_spans (text : String) (spans : List Span) : String :=
  if spans.isEmpty then String.mk (html_escape text.data)
  else String.mk (highlightLoop text.data 0 (sortSpans spans))

/-- Specification-side decomposition: the plain (pre-escape) segments of
the output, each tagged with the wrapping span's label when highlighted. -/
def pieces (text : List Char) (last : Int) :
    List Span → List (List Char × Option String)
  | [] => [(pySlice text last (text.length : Int), none)]
  | r :: rest =>
    (pySlice text last r.start_char, none) ::
      (pySlice text r.start_char r.end_char, some r.label) ::
      pieces text r.end_char rest

/-- Specification-side rendering of one segment: escaped, and wrapped in
the marker when labelled. -/
def renderPiece : List Char × Option String → List Char
  | (s, none) => html_escape s
  | (s, some l) => markTag l (html_escape s)

/-- In-bounds, non-overlapping chain condition on a sorted span list,
starting from offset `last`. -/
def chainOK (len : ℕ) : Int → List Span → Bool
  | _, [] => true
  | last, r :: rest =>
    decide (last ≤ r.start_char) && decide (r.start_char ≤ r.end_char) &&
      decide (r.end_char ≤ (len : Int)) && chainOK len r.end_char rest

/-- Tiling of take/drop windows over natural indices. -/
theorem slice_nat (s : List Char) (i j k : ℕ) (hij : i ≤ j) (hjk : j ≤ k)
    (hk : k ≤ s.length) :
    (s.take j).drop i ++ (s.take k).drop j = (s.take k).drop i := by
  have hjt : s.take j = (s.take k).take j := by
    rw [List.take_take, min_eq_left hjk]
  rw [hjt]
  generalize hu : s.take k = u
  have hul : u.length = k := by rw [← hu, List.length_take, min_eq_left hk]
  conv_rhs => rw [← List.take_append_drop j u]
  rw [List.drop_append_eq_append_drop]
  congr 1
  rw [List.length_take, hul, min_eq_left hjk, Nat.sub_eq_zero_of_le hij,
    List.drop_zero]

/-- Adjacent Python slices of one list concatenate. -/
theorem pySlice_append (t : List Char) (a b c : Int) (h0 : 0 ≤ a)
    (hab : a ≤ b) (hbc : b ≤ c) (hc : c ≤ (t.length : Int)) :
    pySlice t a b ++ pySlice t b c = pySlice t a c := by
  unfold pySlice pyIdx
  rw [if_neg (by omega), if_neg (by omega), if_neg (by omega)]
  rw [min_eq_left (by omega), min_eq_left (by omega), min_eq_left (by omega)]
  exact slice_nat t a.toNat b.toNat c.toNat (by omega) (by omega) (by omega)

/-- The full slice is the whole list. -/
theorem pySlice_full (t : List Char) : pySlice t 0 (t.length : Int) = t := by
  unfold pySlice pyIdx
  rw [if_neg (by omega), if_neg (by omega)]
  simp

/-- The highlight loop renders exactly the segment decomposition. -/
theorem highlightLoop_eq_pieces (text : List Char) (ss : List Span)
    (last : Int) :
    highlightLoop text last ss =
      ((pieces text last ss).map renderPiece).flatten := by
  induction ss generalizing last with
  | nil => simp [highlightLoop, pieces, renderPiece]
  | cons r rest ih => simp [highlightLoop, pieces, renderPiece, ih]

/-- Under the chain condition the plain segments tile the suffix of the
text from `last`. -/
theorem pieces_tile (text : List Char) (ss : List Span) (last : Int)
    (h0 : 0 ≤ last) (hlen : last ≤ (text.length : Int))
    (hc : chainOK text.length last ss = true) :
    ((pieces text last ss).map Prod.fst).flatten =
      pySlice text last (text.length : Int) := by
  induction ss generalizing last with
  | nil => simp [pieces]
  | cons r rest ih =>
    simp only [chainOK, Bool.and_eq_true, decide_eq_true_eq] at hc
    obtain ⟨⟨⟨h1, h2⟩, h3⟩, h4⟩ := hc
    simp only [pieces, List.map_cons, List.flatten_cons]
    rw [ih r.end_char (by omega) h3 h4, ← List.append_assoc]
    rw [pySlice_append text last r.start_char r.end_char h0 h1 h2 h3]
    exact pySlice_append text last r.end_char _ h0 (le_trans h1 h2) h3
      (le_refl _)

/-- C9: for spans whose sorted order is in-bounds and non-overlapping, the
highlighter's output is the rendering of a partition of the text — the
plain segments concatenate back to the original text, every character
once and in order — and with no spans the output is exactly the escaped
text. -/
theorem C9_output_partitions_text :
    (∀ (text : String) (spans : List Span),
      chainOK text.data.length 0 (sortSpans spans) = true →
      highlight_spans text spans =
        String.mk
          (((pieces text.data 0 (sortSpans spans)).map renderPiece).flatten) ∧
      ((pieces text.data 0 (sortSpans spans)).map Prod.fst).flatten =
        text.data) ∧
    (∀ text : String,
      highlight_spans text [] = String.mk (html_escape text.data)) := by
  constructor
  · intro text spans hc
    constructor
    · unfold highlight_spans
      by_cases h : spans.isEmpty
      · have hs : spans = [] := List.isEmpty_iff.mp h
        subst hs
        have hfull := pySlice_full text.data
        simp only [List.isEmpty_nil, if_true, sortSpans, List.foldr_nil,
          pieces, List.map_cons, List.map_nil, List.flatten_cons,
          List.flatten_nil, List.append_nil, renderPiece, hfull]
      · rw [if_neg h, highlightLoop_eq_pieces]
    · rw [pieces_tile text.data (sortSpans spans) 0 (by omega) (by omega) hc]
      exact pySlice_full text.data
  · intro text
    simp [highlight_spans]

/-- Witness for C9: a concrete text with two in-order spans. -/
theorem C9_output_partitions_text_witness :
    chainOK (String.data ("abcdef")).length 0
        (sortSpans [⟨1, 2, "x"⟩, ⟨4, 6, "y"⟩]) = true ∧
    highlight_spans ("abcdef") [⟨1, 2, "x"⟩, ⟨4, 6, "y"⟩] =
      String.mk (((pieces (String.data ("abcdef")) 0
        (sortSpans [⟨1, 2, "x"⟩, ⟨4, 6, "y"⟩])).map renderPiece).flatten) ∧
    ((pieces (String.data ("abcdef")) 0
        (sortSpans [⟨1, 2, "x"⟩, ⟨4, 6, "y"⟩])).map Prod.fst).flatten =
      String.data ("abcdef") :=
  ⟨by decide,
    (C9_output_partitions_text.1 ("abcdef") [⟨1, 2, "x"⟩, ⟨4, 6, "y"⟩]
      (by decide)).1,
    (C9_output_partitions_text.1 ("abcdef") [⟨1, 2, "x"⟩, ⟨4, 6, "y"⟩]
      (by decide)).2⟩

/-- C7: on `"The fox runs fast"` with the single span (label `x`, start 4,
end 7) the output is the escaped prefix, the marker-wrapped escaped
`"fox"`, and the escaped suffix; with no spans the output is the escaped
text. -/
theorem C7_highlight_example :
    highlight_spans ("The fox runs fast") [⟨4, 7, "x"⟩] =
      ("The <mark class=\"label-x\">fox<span class=\"badge\">x</span></mark> runs fast") ∧
    highlight_spans ("The fox runs fast") [⟨4, 7, "x"⟩] =
      String.mk (html_escape (String.data ("The ")) ++
        markTag ("x") (html_escape (String.data ("fox"))) ++
        html_escape (String.data (" runs fast"))) ∧
    (∀ text : String,
      highlight_spans text [] = String.mk (html_escape text.data)) := by
  refine ⟨by decide, by decide, ?_⟩
  intro text
  simp [highlight_spans]

/-! Part 6: attachment-stripping pass (`src/limpar_textos.py`). -/

/-- Python `\s` on the characters that can occur here (ASCII whitespace). -/
def isPyWS (c : Char) : Bool :=
  c == ' ' || c == '\t' || c == '\n' || c == '\r' || c == '\x0B' || c == '\x0C'

/-- Case folding for `re.IGNORECASE` restricted to the pattern's alphabet
(ASCII letters and `Í`). -/
def lowerPt (c : Char) : Char :=
  if c = 'Í' then 'í' else c.toLower

/-- Case-insensitive character match. -/
def charCI (p c : Char) : Bool :=
  lowerPt p == lowerPt c

/-- Match a literal pattern case-insensitively, returning the remainder. -/
def matchLit : List Char → List Char → Option (List Char)
  | [], s => some s
  | _ :: _, [] => none
  | p :: ps, c :: cs => if charCI p c then matchLit ps cs else none

/-- Models `\s*` (maximal munch, equivalent here because every following literal
starts with a non-whitespace character). -/
def skipWS (s : List Char) : List Char :=
  s.dropWhile isPyWS

/-- Models `\s+`. -/
def matchWS1 : List Char → Option (List Char)
  | [] => none
  | c :: cs => if isPyWS c then some (skipWS cs) else none

/-- Models `["“”]?` (deterministic: the following literal is never a quote). -/
def matchOptQuote : List Char → List Char
  | [] => []
  | c :: cs => if c == '"' || c == '“' || c == '”' then cs else c :: cs

/-- The `SEGUE(,) NA ÍNTEGRA(,) PRONUNCIAMENTO` alternatives (with or
without commas); the trailing optional quote never affects acceptance. -/
def matchSegueTail (withCommas : Bool) (s : List Char) : Option (List Char) :=
  (matchLit (if withCommas then ("SEGUE,").data else ("SEGUE").data) s).bind
    fun s1 => (matchWS1 s1).bind
    fun s2 => (matchLit (String.data ("NA")) s2).bind
    fun s3 => (matchWS1 s3).bind
    fun s4 => (matchLit
      (if withCommas then ("ÍNTEGRA,").data else ("ÍNTEGRA").data) s4).bind
    fun s5 => (matchWS1 s5).bind
    fun s6 => matchLit (String.data ("PRONUNCIAMENTO")) s6

/-- The `DOCUMENTO ENCAMINHADO PEL[OA]` alternative. -/
def matchDocumento (s : List Char) : Option (List Char) :=
  (matchLit (String.data ("DOCUMENTO")) s).bind
    fun s1 => (matchWS1 s1).bind
    fun s2 => (matchLit (String.data ("ENCAMINHADO")) s2).bind
    fun s3 => (matchWS1 s3).bind
    fun s4 => (matchLit (String.data ("PEL")) s4).bind
    fun s5 =>
      match s5 with
      | [] => none
      | c :: r => if charCI 'O' c || charCI 'A' c then some r else none

/-- Whether `REGEX_EXCLUIR_ANEXOS` matches at this position: either `****` or one
of the quoted marker phrases (the trailing `.*` with DOTALL always
succeeds). -/
def matchesAt (s : List Char) : Bool :=
  (("****").data.isPrefixOf s) ||
    (let s0 := skipWS (matchOptQuote s)
     (matchSegueTail true s0).isSome || (matchSegueTail false s0).isSome ||
       (matchDocumento s0).isSome)

/-- Models `REGEX_EXCLUIR_ANEXOS.sub("", texto)`: since every match extends to the
end of the string, substitution keeps exactly the prefix before the
leftmost matching position. -/
def cutAtMarker : List Char → List Char
  | [] => []
  | c :: s => if matchesAt (c :: s) then [] else c :: cutAtMarker s

/-- Python `str.strip()` on the whitespace that can occur here. -/
def pyStrip (s : List Char) : List Char :=
  ((s.dropWhile isPyWS).reverse.dropWhile isPyWS).reverse

/-- Embeds `limpar_texto_anexos(texto)`: a non-string (`None`) becomes
`""`; otherwise the regex substitution followed by `.strip()`. -/
def limpar_texto_anexos (texto : Option String) : String :=
  match texto with
  | none => ""
  | some t => String.mk (pyStrip (cutAtMarker t.data))

/-- One row of the cleaned table: `(id, stored text)`. -/
abbrev Row10 := Int × Option String

/-- The per-row test `(txt or "") != novo` of `limpar_coluna_sqlite`
(`txt or ""` collapses `None` and `""` alike to `""`). -/
def rowChanged (txt : Option String) : Bool :=
  !(txt.getD ("") == limpar_texto_anexos txt)

/-- The `(novo, id)` UPDATE parameters accumulated by the loop, in row
order (batching only chunks the same ordered sequence). -/
def updatesOf (rows : List Row10) : List (String × Int) :=
  rows.filterMap fun r =>
    if rowChanged r.2 then some (limpar_texto_anexos r.2, r.1) else none

/-- Effect of one `UPDATE table SET text = ? WHERE id = ?`. -/
def applyUpdate (db : List Row10) (u : String × Int) : List Row10 :=
  db.map fun r => if r.1 = u.2 then (r.1, some u.1) else r

/-- Effect of the whole `executemany` sequence. -/
def applyUpdates (db : List Row10) (us : List (String × Int)) : List Row10 :=
  us.foldl applyUpdate db

/-- Updates preserve the table length. -/
theorem applyUpdates_length (us : List (String × Int)) (db : List Row10) :
    (applyUpdates db us).length = db.length := by
  induction us generalizing db with
  | nil => rfl
  | cons u us ih => simpa [applyUpdates, applyUpdate] using ih (applyUpdate db u)

/-- Pointwise effect of one update. -/
theorem applyUpdate_get (db : List Row10) (u : String × Int) (k : ℕ)
    (hk : k < db.length) (hk' : k < (applyUpdate db u).length) :
    (applyUpdate db u).get ⟨k, hk'⟩ =
      if (db.get ⟨k, hk⟩).1 = u.2 then ((db.get ⟨k, hk⟩).1, some u.1)
      else db.get ⟨k, hk⟩ := by
  simp [applyUpdate]

/-- A position whose id never occurs among the updates is untouched. -/
theorem applyUpdates_get_frame (us : List (String × Int)) (db : List Row10)
    (k : ℕ) (hk : k < db.length)
    (hk' : k < (applyUpdates db us).length)
    (h : ∀ u ∈ us, u.2 ≠ (db.get ⟨k, hk⟩).1) :
    (applyUpdates db us).get ⟨k, hk'⟩ = db.get ⟨k, hk⟩ := by
  induction us generalizing db with
  | nil => rfl
  | cons u us ih =>
    have hk2 : k < (applyUpdate db u).length := by
      simpa [applyUpdate] using hk
    have hpoint : (applyUpdate db u).get ⟨k, hk2⟩ = db.get ⟨k, hk⟩ := by
      rw [applyUpdate_get db u k hk hk2,
        if_neg fun hc => h u (List.mem_cons_self u us) hc.symm]
    have hstep := ih (applyUpdate db u) (by simpa [applyUpdate] using hk)
      (by simpa [applyUpdates] using hk')
      (by intro v hv; rw [hpoint]; exact h v (List.mem_cons_of_mem u hv))
    calc (applyUpdates db (u :: us)).get ⟨k, hk'⟩
        = (applyUpdates (applyUpdate db u) us).get ⟨k, _⟩ := rfl
      _ = (applyUpdate db u).get ⟨k, hk2⟩ := hstep
      _ = db.get ⟨k, hk⟩ := hpoint

/-- C10: every examined row is counted as either updated or unchanged
(`verificadas = atualizadas + inalteradas`); a row is updated exactly when
`(txt or "")` differs from the cleaned text; and under unique ids a row
unchanged by the attachment-stripping rule is left byte-for-byte identical
by the whole UPDATE sequence. -/
theorem C10_update_only_when_changed :
    (∀ rows : List Row10,
      rows.length = (updatesOf rows).length +
        (rows.filter fun r => !(rowChanged r.2)).length) ∧
    (∀ txt : Option String,
      rowChanged txt = false ↔ txt.getD ("") = limpar_texto_anexos txt) ∧
    (∀ db : List Row10, (db.map Prod.fst).Nodup →
      ∀ (k : ℕ) (hk : k < db.length)
        (hk' : k < (applyUpdates db (updatesOf db)).length),
        rowChanged (db.get ⟨k, hk⟩).2 = false →
        (applyUpdates db (updatesOf db)).get ⟨k, hk'⟩ = db.get ⟨k, hk⟩) := by
  refine ⟨?_, ?_, ?_⟩
  · intro rows
    induction rows with
    | nil => rfl
    | cons r rest ih =>
      by_cases h : rowChanged r.2
      · simp only [updatesOf, List.filterMap_cons, h, if_pos, List.filter_cons,
          Bool.not_true, List.length_cons, List.length] at ih ⊢
        simp [h, ih]
        omega
      · simp only [updatesOf, List.filterMap_cons, List.filter_cons,
          List.length_cons] at ih ⊢
        simp [h, ih]
        omega
  · intro txt
    simp [rowChanged]
  · intro db hnodup k hk hk' hunchanged
    apply applyUpdates_get_frame
    intro u hu
    rcases List.mem_filterMap.mp hu with ⟨r, hr, hru⟩
    by_cases hch : rowChanged r.2
    · rw [if_pos hch] at hru
      have heq := Option.some.inj hru
      have hu2 : u.2 = r.1 := by rw [← heq]
      rw [hu2]
      intro hcontra
      rcases List.mem_iff_get.mp hr with ⟨j, hj⟩
      have hlen1 : j.1 < (db.map Prod.fst).length := by
        simp only [List.length_map]
        exact j.2
      have hlen2 : k < (db.map Prod.fst).length := by
        simpa using hk
      have hfst : (db.map Prod.fst).get ⟨j.1, hlen1⟩ =
          (db.map Prod.fst).get ⟨k, hlen2⟩ := by
        simp only [List.get_eq_getElem, List.getElem_map]
        show (db.get ⟨j.1, j.2⟩).1 = (db.get ⟨k, hk⟩).1
        rw [show db.get ⟨j.1, j.2⟩ = r from hj]
        exact hcontra
      have hjk := List.nodup_iff_injective_get.mp hnodup hfst
      have hjk' : j.1 = k := congrArg Fin.val hjk
      have hrk : r = db.get ⟨k, hk⟩ := by
        rw [← hj]
        congr 1
        exact Fin.ext hjk'
      rw [hrk, hunchanged] at hch
      exact Bool.false_ne_true hch
    · rw [if_neg hch] at hru
      exact absurd hru (Option.noConfusion)

/-- Concrete table for the C10 witness: row 1 is unchanged by the cleaning
rule, row 2 is not. -/
def dbC10 : List Row10 := [(1, some ("abc")), (2, some (" x "))]

/-- Witness for C10 on `dbC10` at the unchanged row 0. -/
theorem C10_update_only_when_changed_witness :
    (dbC10.map Prod.fst).Nodup ∧
    rowChanged ((dbC10.get ⟨0, by decide⟩).2) = false ∧
    (applyUpdates dbC10 (updatesOf dbC10)).get ⟨0, by decide⟩ =
      dbC10.get ⟨0, by decide⟩ :=
  ⟨by decide, by decide,
    C10_update_only_when_changed.2.2 dbC10 (by decide) 0 (by decide)
      (by decide) (by decide)⟩

/-! Part 7: response parser (`batch_figuras.py`, `parse_output_to_parquet`). -/

/-- JSON values as decoded by `json.loads` (numbers as integers suffice for
the shapes the parser inspects). -/
inductive Json where
  | null : Json
  | bool : Bool → Json
  | num : Int → Json
  | str : String → Json
  | arr : List Json → Json
  | obj : List (String × Json) → Json

/-- Key lookup in a decoded object (keys are unique after `json.loads`). -/
def jsonLookup (fields : List (String × Json)) (k : String) : Option Json :=
  match fields with
  | [] => none
  | (k', v) :: rest => if k' = k then some v else jsonLookup rest k

/-- Python `dict.get(k, d)`. -/
def dictGetD (fields : List (String × Json)) (k : String) (d : Json) : Json :=
  (jsonLookup fields k).getD d

/-- Python truthiness of a decoded JSON value. -/
def jsonFalsy : Json → Bool
  | .null => true
  | .bool b => !b
  | .num n => n == 0
  | .str s => s.isEmpty
  | .arr l => l.isEmpty
  | .obj l => l.isEmpty

/-- A Python subscript: string key or integer index. -/
inductive PyKey where
  | s : String → PyKey
  | i : Int → PyKey

/-- Python `x[key]` on a decoded JSON value, with Python's exceptions. -/
def pyIndex : Json → PyKey → Except String Json
  | .obj fields, .s k =>
    match jsonLookup fields k with
    | some v => .ok v
    | none => .error ("KeyError: " ++ k)
  | .obj _, .i _ => .error ("KeyError: integer key")
  | .arr l, .i i =>
    let j := if i < 0 then (l.length : Int) + i else i
    if j < 0 then .error ("IndexError: list index out of range")
    else
      match l[j.toNat]? with
      | some v => .ok v
      | none => .error ("IndexError: list index out of range")
  | .arr _, .s _ => .error ("TypeError: list indices must be integers")
  | .str s, .i i =>
    let j := if i < 0 then (s.data.length : Int) + i else i
    if j < 0 then .error ("IndexError: string index out of range")
    else
      match s.data[j.toNat]? with
      | some c => .ok (.str (String.mk [c]))
      | none => .error ("IndexError: string index out of range")
  | .str _, .s _ => .error ("TypeError: string indices must be integers")
  | _, _ => .error ("TypeError: object is not subscriptable")

/-- The access chain `resp["output"][0]["content"][0]`. -/
def extractOutput (resp : Json) : Except String Json :=
  (pyIndex resp (.s ("output"))).bind fun a =>
    (pyIndex a (.i 0)).bind fun b =>
      (pyIndex b (.s ("content"))).bind fun c =>
        pyIndex c (.i 0)

/-- Python `x == "lit"` for a decoded value (false on non-strings). -/
def isStrEq (j : Json) (s : String) : Bool :=
  match j with
  | .str t => t == s
  | _ => false

/-- One output row (a Python dict in insertion order). -/
abbrev PRow := List (String × Json)

/-- The error row `{"custom_id": ..., "parse_error": str(e),
"raw_response": obj}`. -/
def errorRow (cid : Json) (e : String) (raw : Json) : PRow :=
  [(("custom_id"), cid), (("parse_error"), Json.str e),
    (("raw_response"), raw)]

/-- The `for sp in spans` loop: each mapping element appends
`{"custom_id": cid, **sp}`; a non-mapping element raises, keeping the rows
appended so far. -/
def iterSpans (cid : Json) : List Json → List PRow × Option String
  | [] => ([], none)
  | .obj fields :: rest =>
    let r := iterSpans cid rest
    (((("custom_id"), cid) :: fields) :: r.1, r.2)
  | _ :: _ => ([], some ("TypeError: span is not a mapping"))

/-- Iteration `for sp in spans` on an arbitrary value: lists iterate their elements,
strings iterate characters and dicts iterate keys (both raise on the first
element at the `**sp` merge unless empty), other values are not iterable. -/
def forSpans (cid : Json) : Json → List PRow × Option String
  | .arr l => iterSpans cid l
  | .str s =>
    if s.isEmpty then ([], none)
    else ([], some ("TypeError: span is not a mapping"))
  | .obj fields =>
    if fields.isEmpty then ([], none)
    else ([], some ("TypeError: span is not a mapping"))
  | _ => ([], some ("TypeError: spans is not iterable"))

/-- The `try:` body of the per-line processing: the extracted content block
is dispatched on its `type`; the result is the appended rows plus the
caught exception, if any. -/
def tryBody (cid : Json) (resp : Json) : List PRow × Option String :=
  match extractOutput resp with
  | .error e => ([], some e)
  | .ok output =>
    match output with
    | .obj ofields =>
      if isStrEq (dictGetD ofields ("type") Json.null) ("output_json") then
        match jsonLookup ofields ("json") with
        | none => ([], some ("KeyError: json"))
        | some payload =>
          match payload with
          | .obj pfields =>
            forSpans cid (dictGetD pfields ("spans") (Json.arr []))
          | _ => ([], some ("AttributeError: object has no attribute get"))
      else if isStrEq (dictGetD ofields ("type") Json.null) ("output_text") then
        ([[(("custom_id"), cid),
          (("text"), dictGetD ofields ("text") (Json.str ("")))]], none)
      else
        ([[(("custom_id"), cid), (("raw"), output)]], none)
    | _ => ([], some ("AttributeError: object has no attribute get"))

/-- Models the line `resp = obj.get("response", ...) or default-empty-dict`. -/
def respOf (fields : List (String × Json)) : Json :=
  let respRaw := dictGetD fields ("response") (Json.obj [])
  if jsonFalsy respRaw then Json.obj [] else respRaw

/-- All rows one decoded object line contributes: the rows appended inside
the `try:` plus, when an exception was caught, the single error row. -/
def objRows (fields : List (String × Json)) : List PRow :=
  let cid := dictGetD fields ("custom_id") Json.null
  let r := tryBody cid (respOf fields)
  r.1 ++
    (match r.2 with
     | some e => [errorRow cid e (Json.obj fields)]
     | none => [])

/-- One input line: `json.loads` happens outside the `try:`, so a
non-object decode result raises `AttributeError` at `obj.get` and escapes. -/
def lineRows (j : Json) : Except String (List PRow) :=
  match j with
  | .obj fields => .ok (objRows fields)
  | _ => .error ("AttributeError: object has no attribute get")

/-- The whole `for line in f` loop of `parse_output_to_parquet`: a line
whose JSON fails to decode (`none`) raises inside `json.loads`, aborting
the function before any output is produced. -/
def parseOutput : List (Option Json) → Except String (List PRow)
  | [] => .ok []
  | none :: _ => .error ("json.loads: Expecting value")
  | some j :: rest =>
    (lineRows j).bind fun rows =>
      (parseOutput rest).map fun more => rows ++ more

/-- A structurally well-formed line whose content block is `output_text`. -/
def goodLine : Json :=
  Json.obj [(("custom_id"), Json.str ("disc-1")),
    (("response"), Json.obj [(("output"), Json.arr [Json.obj
      [(("content"), Json.arr [Json.obj
        [(("type"), Json.str ("output_text")),
         (("text"), Json.str ("ok"))]])]])])]

/-- C3 counterexample: a line with malformed JSON aborts the whole parse —
no row is recorded for it and the following well-formed line (which alone
yields a text row) is never processed. -/
theorem C3_decode_abort_counterexample :
    parseOutput [Option.none, some goodLine] =
      Except.error ("json.loads: Expecting value") ∧
    lineRows goodLine =
      Except.ok [[(("custom_id"), Json.str ("disc-1")),
        (("text"), Json.str ("ok"))]] :=
  ⟨rfl, rfl⟩

/-- C3 amended: for lines that decode to JSON objects the parser never
aborts — the output is the concatenation of each line's rows — and any
exception caught inside the per-line `try:` contributes exactly one error
row, recording the correlation id, the error description and the raw
record, after the rows already appended; but a line that fails JSON
decoding aborts the entire parse. -/
theorem C3_error_rows :
    (∀ objs : List (List (String × Json)),
      parseOutput (objs.map fun f => some (Json.obj f)) =
        Except.ok (objs.flatMap objRows)) ∧
    (∀ (fields : List (String × Json)) (e : String),
      (tryBody (dictGetD fields ("custom_id") Json.null) (respOf fields)).2 =
        some e →
      objRows fields =
        (tryBody (dictGetD fields ("custom_id") Json.null) (respOf fields)).1 ++
          [errorRow (dictGetD fields ("custom_id") Json.null) e
            (Json.obj fields)]) ∧
    (∀ (cid : Json) (e : String) (raw : Json),
      errorRow cid e raw =
        [(("custom_id"), cid), (("parse_error"), Json.str e),
          (("raw_response"), raw)]) := by
  refine ⟨?_, ?_, fun cid e raw => rfl⟩
  · intro objs
    induction objs with
    | nil => rfl
    | cons f rest ih =>
      simp only [List.map_cons, parseOutput, lineRows, List.flatMap_cons]
      rw [ih]
      rfl
  · intro fields e he
    show (tryBody (dictGetD fields ("custom_id") Json.null)
        (respOf fields)).1 ++
        (match (tryBody (dictGetD fields ("custom_id") Json.null)
          (respOf fields)).2 with
         | some e2 => [errorRow (dictGetD fields ("custom_id") Json.null) e2
            (Json.obj fields)]
         | none => []) = _
    rw [he]

/-- A decoded object whose `response["output"]` is an empty list, so the
access chain raises `IndexError` inside the `try:`. -/
def badFields : List (String × Json) :=
  [(("custom_id"), Json.str ("disc-2")),
   (("response"), Json.obj [(("output"), Json.arr [])])]

/-- Witness for C3: a decoded object whose `response["output"]` is an empty
list makes the chain raise `IndexError`; the line's output is exactly the
error row. -/
theorem C3_error_rows_witness :
    (tryBody (dictGetD badFields ("custom_id") Json.null)
      (respOf badFields)).2 = some ("IndexError: list index out of range") ∧
    objRows badFields =
      (tryBody (dictGetD badFields ("custom_id") Json.null)
        (respOf badFields)).1 ++
        [errorRow (dictGetD badFields ("custom_id") Json.null)
          ("IndexError: list index out of range") (Json.obj badFields)] :=
  ⟨rfl, C3_error_rows.2.1 badFields ("IndexError: list index out of range")
    rfl⟩

end ManualNdisc
